import Mathlib

/-!
Verification of the alert-chart timeline/window/axis core (`src/alert-chart.ts`)
against its natural-language specification.

Times are modelled as milliseconds since the epoch (`Date.getTime()`), as
integers; JavaScript `undefined` as `Option.none`; JavaScript numbers as
exact rationals together with a distinguished `NaN` value.
-/

namespace AlertChart

/-- Time instants: milliseconds since the epoch, `Date.getTime()`. -/
abbrev Time := Int

/-- `type AlarmState = 'OK' | 'Alarm' | 'Insufficient'` (alert-chart.ts line 17). -/
inductive AlarmState where
  | OK
  | Alarm
  | Insufficient
deriving DecidableEq

/-- `type GenerateGraphOptionsThreshold = 'lt' | 'gt' | 'gte' | 'lte' | 'eq'` (line 19). -/
inductive ThresholdComparison where
  | lt
  | gt
  | gte
  | lte
  | eq
deriving DecidableEq

/-- A JavaScript number: either `NaN` or an exact value (doubles idealized as rationals). -/
inductive JSNum where
  | nan
  | val (q : ℚ)
deriving DecidableEq

/-- JS `a > b` on numbers: `false` whenever either side is `NaN`. -/
def jsGtB : JSNum → JSNum → Bool
  | .val a, .val b => decide (b < a)
  | _, _ => false

/-- JS `a < b` on numbers: `false` whenever either side is `NaN`. -/
def jsLtB : JSNum → JSNum → Bool
  | .val a, .val b => decide (a < b)
  | _, _ => false

/-- JS `a <= b` on numbers: `false` whenever either side is `NaN`. -/
def jsLeB : JSNum → JSNum → Bool
  | .val a, .val b => decide (a ≤ b)
  | _, _ => false

/-- JS `a >= b` on numbers: `false` whenever either side is `NaN`. -/
def jsGeB : JSNum → JSNum → Bool
  | .val a, .val b => decide (b ≤ a)
  | _, _ => false

/-- JS `a + b` with `NaN` propagation. -/
def jsAdd : JSNum → JSNum → JSNum
  | .val a, .val b => .val (a + b)
  | _, _ => .nan

/-- JS `a - b` with `NaN` propagation. -/
def jsSub : JSNum → JSNum → JSNum
  | .val a, .val b => .val (a - b)
  | _, _ => .nan

/-- JS `a * b` with `NaN` propagation (0 * NaN is NaN in JS as well). -/
def jsMul : JSNum → JSNum → JSNum
  | .val a, .val b => .val (a * b)
  | _, _ => .nan

/-- JS truthiness of a possibly-undefined number: `undefined`, `NaN` and `0` are falsy. -/
def jsTruthy : Option JSNum → Bool
  | none => false
  | some .nan => false
  | some (.val q) => decide (q ≠ 0)

/-- JS `a || b` where `a` is a `Date | undefined`: `Date` objects are always
truthy, so this is just "first value when present". -/
def jsOrDate (a b : Option Time) : Option Time :=
  match a with
  | some x => some x
  | none => b

/-- `interface DateValueXY \x7b x: Date; y: number \x7d` (lines 30-33): an overlay point.
`x` is `Option` because the code can push `x: startTime` with `startTime`
undefined; `y` is only ever the literal `1` or the `NaN` gap sentinel, modelled
by a two-valued type. -/
inductive YVal where
  | one
  | gap
deriving DecidableEq

/-- An overlay point as pushed by `getAlarmStateData`. -/
structure DateValueXY where
  x : Option Time
  y : YVal
deriving DecidableEq

/-- One element of `GenerateGraphOptions.alarmStates` (lines 39-45). -/
structure AlarmStateEntry where
  time : Time
  beginTime : Option Time
  oldState : AlarmState
  newState : AlarmState
deriving DecidableEq

/-- One element of `GenerateGraphOptions.points` (line 51). -/
structure Point where
  time : Time
  value : JSNum
deriving DecidableEq

/-- The fields of `GenerateGraphOptions` (lines 35-53) consumed by
`getAlarmStateData` and the axis-scaling fragment of `generateGraph`. -/
structure GenerateGraphOptions where
  alarmStates : Option (List AlarmStateEntry)
  alarmThresholdValue : Option JSNum
  alarmThresholdComparison : Option ThresholdComparison
  startTime : Option Time
  endTime : Option Time
  points : List Point
deriving DecidableEq

/-- `state.beginTime || state.time` (lines 327, 333, 336): `Date`s are always
truthy so this is `beginTime` when present, else `time`. -/
def beginAnchor (state : AlarmStateEntry) : Time :=
  state.beginTime.getD state.time

/-- The loop gate `startTime === undefined || state.time >= startTime` (line 317). -/
def gatePasses (startTime : Option Time) (t : Time) : Bool :=
  match startTime with
  | none => true
  | some st => decide (st ≤ t)

/-- The mutable loop state of `getAlarmStateData` (lines 309-314): the two
series built so far, plus the running `lastState` and `lastTime`. -/
structure SynthAcc where
  asd : List DateValueXY
  absd : List DateValueXY
  lastState : AlarmState
  lastTime : Option Time
deriving DecidableEq

/-- One iteration of the `for (const state of options.alarmStates)` loop of
`getAlarmStateData` (lines 316-342): when the gate passes, seed each empty
series at `startTime`, emit `(time, 1)` / `(anchor, 1)` on a transition to
Alarm, emit the closing pair on a transition to OK out of Alarm; in every
case update `lastTime` and `lastState` (lines 340-341). -/
def synthStep (startTime : Option Time) (acc : SynthAcc) (state : AlarmStateEntry) : SynthAcc :=
  let acc1 :=
    if gatePasses startTime state.time then
      let seedY : YVal := if acc.lastState = AlarmState.Alarm then .one else .gap
      let asd0 := if acc.asd.length = 0 then acc.asd ++ [{ x := startTime, y := seedY }] else acc.asd
      let absd0 := if acc.absd.length = 0 then acc.absd ++ [{ x := startTime, y := seedY }] else acc.absd
      let asd1 :=
        if state.newState = AlarmState.Alarm then asd0 ++ [{ x := some state.time, y := .one }]
        else asd0
      let absd1 :=
        if state.newState = AlarmState.Alarm then absd0 ++ [{ x := some (beginAnchor state), y := .one }]
        else absd0
      let asd2 :=
        if state.newState = AlarmState.OK then
          (if acc.lastState = AlarmState.Alarm then asd1 ++ [{ x := some (state.time - 1), y := .one }]
           else asd1) ++ [{ x := some state.time, y := .gap }]
        else asd1
      let absd2 :=
        if state.newState = AlarmState.OK then
          (if acc.lastState = AlarmState.Alarm then absd1 ++ [{ x := some (beginAnchor state - 1), y := .one }]
           else absd1) ++ [{ x := some (beginAnchor state), y := .gap }]
        else absd1
      { asd := asd2, absd := absd2, lastState := acc.lastState, lastTime := acc.lastTime }
    else acc
  { acc1 with lastState := state.newState, lastTime := some state.time }

/-- `getAlarmStateData` (lines 308-348): builds the Notification series
(`alarmStateData`, first component) and the Actual series
(`alarmBeginStateData`, second component). A JS array is always truthy, so an
empty-but-present `alarmStates` still enters the branch and receives the
terminal point (lines 344-345). -/
def getAlarmStateData (options : GenerateGraphOptions) : List DateValueXY × List DateValueXY :=
  match options.alarmStates with
  | none => ([], [])
  | some states =>
    let startTime := jsOrDate options.startTime ((options.points.head?).map (·.time))
    let init : SynthAcc := { asd := [], absd := [], lastState := .OK, lastTime := startTime }
    let acc := states.foldl (synthStep startTime) init
    let lastY : YVal := if acc.lastState = AlarmState.Alarm then .one else .gap
    let endX := jsOrDate options.endTime acc.lastTime
    (acc.asd ++ [{ x := endX, y := lastY }], acc.absd ++ [{ x := endX, y := lastY }])

/-- `const defaultPeriod = 300` (line 21). -/
def defaultPeriod : ℚ := 300

/-- `const stateValueMap` (lines 172-176) as the JS object lookup it is:
indexing with a key outside the three entries yields `undefined` (here
`none`); no error is raised. -/
def stateValueMap (s : String) : Option AlarmState :=
  if s = "INSUFFICIENT_DATA" then some AlarmState.Insufficient
  else if s = "OK" then some AlarmState.OK
  else if s = "ALARM" then some AlarmState.Alarm
  else none

/-- JS `stateValueMap[maybeKey]`: indexing with `undefined` also yields `undefined`. -/
def stateValueLookup (s : Option String) : Option AlarmState :=
  s.bind stateValueMap

/-- One parsed alarm-history item as consumed by the `alarmStates` mapping in
`getAWSCloudWatchAlarmGraphOptions` (lines 254-284): the provider `Timestamp`
and the fields extracted from the `HistoryData` JSON
(`oldState?.stateValue`, `newState?.stateValue`,
`oldState?.stateReasonData?.startDate`, `newState?.stateReasonData?.startDate`). -/
structure AlarmHistoryItem where
  timestamp : Option Time
  oldStateValue : Option String
  newStateValue : Option String
  oldStateStartDate : Option Time
  newStateStartDate : Option Time
deriving DecidableEq

/-- `alarm.Period || defaultPeriod` (line 271): a zero (falsy) or absent period
falls back to the default. -/
def alarmPeriodOrDefault (period : Option ℚ) : ℚ :=
  match period with
  | some p => if p = 0 then defaultPeriod else p
  | none => defaultPeriod

/-- One iteration of the startTime-extension fold in
`getAWSCloudWatchAlarmGraphOptions` (lines 264-277): when the item's old state
is Alarm with a recorded onset earlier than the current `startTime`, extend to
that onset only if `(endTime - onset) / period < 1440`; otherwise (else-if!)
when the item's new-state `startDate` is earlier than the current `startTime`,
extend to it with no sample bound. -/
def resolveStartTimeStep (endTime : Time) (period : Option ℚ) (startTime : Time)
    (item : AlarmHistoryItem) : Time :=
  if item.oldStateStartDate.isSome
      ∧ stateValueLookup item.oldStateValue = some AlarmState.Alarm
      ∧ item.oldStateStartDate.getD 0 < startTime then
    let osd := item.oldStateStartDate.getD 0
    let samples : ℚ := ((endTime - osd : ℤ) : ℚ) / alarmPeriodOrDefault period
    if samples < 1440 then osd else startTime
  else if item.newStateStartDate.isSome ∧ item.newStateStartDate.getD 0 < startTime then
    item.newStateStartDate.getD 0
  else startTime

/-- The Window Resolver's backward extension of `startTime`, the left-fold over
history items performed by the `alarmStates` mapping (lines 254-277). -/
def resolveStartTime (endTime : Time) (period : Option ℚ) (initialStartTime : Time)
    (items : List AlarmHistoryItem) : Time :=
  items.foldl (resolveStartTimeStep endTime period) initialStartTime

/-- The runtime shape of the record built at lines 279-284: the TypeScript type
promises `AlarmState`, but `stateValueMap[...]` of an unrecognized string is
`undefined` at runtime, hence `Option AlarmState` here. -/
structure RawAlarmStateEntry where
  time : Time
  beginTime : Option Time
  oldState : Option AlarmState
  newState : Option AlarmState
deriving DecidableEq

/-- The record construction at lines 279-284 (`nowTime` models the
`new Date()` fallback for a missing `Timestamp`). It is total: an unrecognized
state string flows through as `undefined`, it does not raise. -/
def toAlarmStateEntry (nowTime : Time) (item : AlarmHistoryItem) : RawAlarmStateEntry :=
  { time := item.timestamp.getD nowTime
    beginTime := item.newStateStartDate
    oldState := stateValueLookup item.oldStateValue
    newState := stateValueLookup item.newStateValue }

/-- `Number.MIN_VALUE`: the smallest positive double, `2 ^ (-1074)`. -/
def numberMinValue : ℚ := 1 / 2 ^ 1074

/-- `Number.MAX_VALUE`: the largest finite double, `(2 ^ 53 - 1) * 2 ^ 971`. -/
def numberMaxValue : ℚ := (2 ^ 53 - 1) * 2 ^ 971

/-- `const threadholdMargin = 0.1` (line 364, name as in the source). -/
def threadholdMargin : ℚ := 1 / 10

/-- The `pointMax` reduce of `generateGraph` (lines 366-369):
`points.reduce((accum, point) => (accum > point.value ? accum : point.value), Number.MIN_VALUE)`.
Note `accum > NaN` is false, so a `NaN` value replaces the accumulator. -/
def pointMaxOf (points : List Point) : JSNum :=
  points.foldl (fun accum point => if jsGtB accum point.value then accum else point.value)
    (.val numberMinValue)

/-- The `pointMin` reduce of `generateGraph` (lines 370-373), seeded with
`Number.MAX_VALUE`; `NaN`-unsafe in the same way as `pointMaxOf`. -/
def pointMinOf (points : List Point) : JSNum :=
  points.foldl (fun accum point => if jsLtB accum point.value then accum else point.value)
    (.val numberMaxValue)

/-- The Axis Scaler's output: the `suggestedMax` / `suggestedMin` /
`thresholdFill` trio computed by `generateGraph` (lines 361-385);
`thresholdFill` is `string | false` in the source, modelled as `Option String`. -/
structure AxisScaling where
  suggestedMax : Option JSNum
  suggestedMin : Option JSNum
  thresholdFill : Option String
deriving DecidableEq

/-- The axis-scaling fragment of `generateGraph` (lines 361-385): nothing runs
unless `options.alarmThresholdValue` is truthy (so a 0 threshold disables it);
`gt`/`gte` set fill "end" and possibly `suggestedMax`, `lt`/`lte` set fill
"start" and possibly `suggestedMin`; any other comparison sets nothing. -/
def computeAxisScaling (options : GenerateGraphOptions) : AxisScaling :=
  if jsTruthy options.alarmThresholdValue then
    let thresholdValue := options.alarmThresholdValue.getD .nan
    let pointMax := pointMaxOf options.points
    let pointMin := pointMinOf options.points
    if options.alarmThresholdComparison = some ThresholdComparison.gt
        ∨ options.alarmThresholdComparison = some ThresholdComparison.gte then
      { suggestedMax :=
          if jsLeB pointMax thresholdValue then
            some (jsAdd thresholdValue (jsMul (jsSub thresholdValue pointMin) (.val threadholdMargin)))
          else none
        suggestedMin := none
        thresholdFill := some "end" }
    else if options.alarmThresholdComparison = some ThresholdComparison.lt
        ∨ options.alarmThresholdComparison = some ThresholdComparison.lte then
      { suggestedMax := none
        suggestedMin :=
          if jsGeB pointMin thresholdValue then
            some (jsSub thresholdValue (jsMul (jsSub pointMax thresholdValue) (.val threadholdMargin)))
          else none
        thresholdFill := some "start" }
    else
      { suggestedMax := none, suggestedMin := none, thresholdFill := none }
  else
    { suggestedMax := none, suggestedMin := none, thresholdFill := none }

/-- The non-`NaN` sample values, in order. -/
def nonNaNValues (points : List Point) : List ℚ :=
  points.filterMap (fun p =>
    match p.value with
    | .nan => none
    | .val q => some q)

/-- The sample maximum as the specification describes it: the maximum over the
non-`NaN` values only (`none` when every value is `NaN`). Stated from the
spec's words for comparison with `pointMaxOf`. -/
def specMaxIgnoringNaN (points : List Point) : Option ℚ :=
  (nonNaNValues points).max?

/-- C1: for transitions [OK→Alarm at T+2h, Alarm→OK at T+4h] and window
[T, T+6h], the Notification series is exactly the five points
[(T, gap), (T+2h, 1), (T+4h − 1ms, 1), (T+4h, gap), (T+6h, gap)]. -/
theorem C1_scenario_A (T : Int) :
    (getAlarmStateData
      { alarmStates := some [⟨T + 7200000, none, .OK, .Alarm⟩, ⟨T + 14400000, none, .Alarm, .OK⟩],
        alarmThresholdValue := none, alarmThresholdComparison := none,
        startTime := some T, endTime := some (T + 21600000), points := [] }).1 =
    [⟨some T, .gap⟩, ⟨some (T + 7200000), .one⟩, ⟨some (T + 14400000 - 1), .one⟩,
     ⟨some (T + 14400000), .gap⟩, ⟨some (T + 21600000), .gap⟩] := by
  have h1 : synthStep (some T) ⟨[], [], .OK, some T⟩ ⟨T + 7200000, none, .OK, .Alarm⟩ =
      ⟨[⟨some T, .gap⟩, ⟨some (T + 7200000), .one⟩],
       [⟨some T, .gap⟩, ⟨some (T + 7200000), .one⟩], .Alarm, some (T + 7200000)⟩ := by
    simp [synthStep, gatePasses, beginAnchor]
  have h2 : synthStep (some T)
      ⟨[⟨some T, .gap⟩, ⟨some (T + 7200000), .one⟩],
       [⟨some T, .gap⟩, ⟨some (T + 7200000), .one⟩], .Alarm, some (T + 7200000)⟩
      ⟨T + 14400000, none, .Alarm, .OK⟩ =
      ⟨[⟨some T, .gap⟩, ⟨some (T + 7200000), .one⟩, ⟨some (T + 14400000 - 1), .one⟩,
        ⟨some (T + 14400000), .gap⟩],
       [⟨some T, .gap⟩, ⟨some (T + 7200000), .one⟩, ⟨some (T + 14400000 - 1), .one⟩,
        ⟨some (T + 14400000), .gap⟩], .OK, some (T + 14400000)⟩ := by
    simp [synthStep, gatePasses, beginAnchor]
  have hfold : List.foldl (synthStep (some T)) ⟨[], [], .OK, some T⟩
      [(⟨T + 7200000, none, .OK, .Alarm⟩ : AlarmStateEntry), ⟨T + 14400000, none, .Alarm, .OK⟩] =
      ⟨[⟨some T, .gap⟩, ⟨some (T + 7200000), .one⟩, ⟨some (T + 14400000 - 1), .one⟩,
        ⟨some (T + 14400000), .gap⟩],
       [⟨some T, .gap⟩, ⟨some (T + 7200000), .one⟩, ⟨some (T + 14400000 - 1), .one⟩,
        ⟨some (T + 14400000), .gap⟩], .OK, some (T + 14400000)⟩ := by
    rw [List.foldl_cons, h1, List.foldl_cons, h2, List.foldl_nil]
  rw [getAlarmStateData]
  simp only [hfold, jsOrDate]
  simp

/-- C2 fails on the code: an empty-but-present `alarmStates` array is truthy in
JS, so the terminal push still runs; each series holds one point, not zero. -/
theorem C2_counterexample :
    getAlarmStateData
      { alarmStates := some [], alarmThresholdValue := none, alarmThresholdComparison := none,
        startTime := some 0, endTime := some 3600000, points := [] } =
      ([⟨some 3600000, .gap⟩], [⟨some 3600000, .gap⟩]) ∧
    (getAlarmStateData
      { alarmStates := some [], alarmThresholdValue := none, alarmThresholdComparison := none,
        startTime := some 0, endTime := some 3600000, points := [] }).1 ≠ [] := by
  exact ⟨rfl, by decide⟩

/-- C2 amended: with a present-but-empty transition list each series is exactly
the single terminal point at `endTime` (falling back to the resolved window
start), with gap `y`; the series are empty exactly when `alarmStates` is
absent (undefined). -/
theorem C2_amended (tv : Option JSNum) (tc : Option ThresholdComparison)
    (st et : Option Time) (ps : List Point) :
    getAlarmStateData ⟨some [], tv, tc, st, et, ps⟩ =
      ([⟨jsOrDate et (jsOrDate st (ps.head?.map (·.time))), .gap⟩],
       [⟨jsOrDate et (jsOrDate st (ps.head?.map (·.time))), .gap⟩]) ∧
    getAlarmStateData ⟨none, tv, tc, st, et, ps⟩ = ([], []) :=
  ⟨rfl, rfl⟩

/-- C3 fails on the code: a single transition whose time precedes the window
start is skipped, so no seed is ever pushed and each series has exactly one
point (the terminal), not ≥ 2. -/
theorem C3_counterexample :
    (getAlarmStateData
      { alarmStates := some [⟨5, none, .OK, .Alarm⟩], alarmThresholdValue := none,
        alarmThresholdComparison := none, startTime := some 10, endTime := some 20,
        points := [] }).1.length < 2 ∧
    (getAlarmStateData
      { alarmStates := some [⟨5, none, .OK, .Alarm⟩], alarmThresholdValue := none,
        alarmThresholdComparison := none, startTime := some 10, endTime := some 20,
        points := [] }).2.length < 2 := by
  decide

/-- C4 fails on the code: the walk gate tests the notification `time` for both
series, so a transition with `time ≥ windowStart` but `beginTime < windowStart`
still emits a point at its begin anchor in the Actual series — here the point
(0, 1) although windowStart is 10. -/
theorem C4_counterexample :
    (getAlarmStateData
      { alarmStates := some [⟨10, some 0, .OK, .Alarm⟩], alarmThresholdValue := none,
        alarmThresholdComparison := none, startTime := some 10, endTime := some 20,
        points := [] }).2 =
      [⟨some 10, .gap⟩, ⟨some 0, .one⟩, ⟨some 20, .one⟩] ∧
    (⟨some 0, .one⟩ : DateValueXY) ∈
      (getAlarmStateData
        { alarmStates := some [⟨10, some 0, .OK, .Alarm⟩], alarmThresholdValue := none,
          alarmThresholdComparison := none, startTime := some 10, endTime := some 20,
          points := [] }).2 := by
  decide

/-- C5 fails on the code: the 1440-sample sanity bound guards only the
prior-Alarm-onset branch; the else-branch that extends to the transition's own
begin onset (`newState.stateReasonData.startDate`) runs with no bound at all.
Here the implied sample count is 10^9 / 300 ≈ 3.3·10^6 ≥ 1440, yet the
resolved start is pulled all the way back to the onset 0. -/
theorem C5_counterexample :
    resolveStartTime 1000000000 none 999999000
      [⟨some 999999500, some "OK", some "ALARM", none, some 0⟩] = 0 ∧
    (1440 : ℚ) < ((1000000000 - 0 : ℤ) : ℚ) / alarmPeriodOrDefault none := by
  refine ⟨by decide, ?_⟩
  norm_num [alarmPeriodOrDefault, defaultPeriod]

/-- C7: the claim is right and the code is wrong. The reduce
`accum > point.value ? accum : point.value` treats `NaN` as "not greater", so
a `NaN` sample replaces the running maximum instead of being ignored: on
values [5, NaN, 1] the code computes sample max 1 (and min 1), while the
maximum over the non-NaN values is 5. -/
theorem C7_nan_not_ignored :
    pointMaxOf [⟨0, .val 5⟩, ⟨1, .nan⟩, ⟨2, .val 1⟩] = JSNum.val 1 ∧
    specMaxIgnoringNaN [⟨0, .val 5⟩, ⟨1, .nan⟩, ⟨2, .val 1⟩] = some 5 ∧
    pointMinOf [⟨0, .val 5⟩, ⟨1, .nan⟩, ⟨2, .val 1⟩] = JSNum.val 1 := by
  refine ⟨?_, by decide, ?_⟩ <;>
    · simp only [pointMaxOf, pointMinOf, List.foldl_cons, List.foldl_nil, jsGtB, jsLtB]
      norm_num [numberMinValue, numberMaxValue]

/-- C8: no axis extension happens when the comparison is absent or `eq`, or
when the configured threshold value is exactly 0 (falsy), whatever the sample
values are. -/
theorem C8_no_extension (options : GenerateGraphOptions)
    (h : options.alarmThresholdComparison = none ∨
         options.alarmThresholdComparison = some ThresholdComparison.eq ∨
         options.alarmThresholdValue = some (JSNum.val 0)) :
    (computeAxisScaling options).suggestedMax = none ∧
    (computeAxisScaling options).suggestedMin = none := by
  unfold computeAxisScaling
  rcases h with h | h | h
  · by_cases ht : jsTruthy options.alarmThresholdValue <;> simp [ht, h]
  · by_cases ht : jsTruthy options.alarmThresholdValue <;> simp [ht, h]
  · simp [h, jsTruthy]

theorem C8_witness :
    (computeAxisScaling ⟨none, some (.val 5), none, none, none, [⟨0, .val 3⟩]⟩).suggestedMax
      = none ∧
    (computeAxisScaling ⟨none, some (.val 5), none, none, none, [⟨0, .val 3⟩]⟩).suggestedMin
      = none :=
  C8_no_extension _ (Or.inl rfl)

/-- C9 fails on the code: `stateValueMap` is a plain JS object, so indexing it
with an unrecognized state string yields `undefined` and the record mapping at
lines 279-284 completes normally carrying that `undefined` — nothing throws. -/
theorem C9_counterexample :
    stateValueMap "BROKEN" = none ∧
    toAlarmStateEntry 0 ⟨some 1, some "OK", some "BROKEN", none, none⟩ =
      { time := 1, beginTime := none, oldState := some AlarmState.OK, newState := none } :=
  ⟨rfl, rfl⟩

/-- C9 amended: an unrecognized provider state string normalizes to undefined
(`none`) — never to OK or any other state — and the history-record mapping
completes without error, carrying the undefined state. -/
theorem C9_amended (s : String) (h1 : s ≠ "INSUFFICIENT_DATA") (h2 : s ≠ "OK")
    (h3 : s ≠ "ALARM") (nowTime : Time) (ts : Option Time) (osv : Option String)
    (osd nsd : Option Time) :
    stateValueMap s = none ∧
    (toAlarmStateEntry nowTime ⟨ts, osv, some s, osd, nsd⟩).newState = none := by
  have hm : stateValueMap s = none := by simp [stateValueMap, h1, h2, h3]
  exact ⟨hm, by simp [toAlarmStateEntry, stateValueLookup, hm]⟩

theorem C9_witness :
    stateValueMap "BANANA" = none ∧
    (toAlarmStateEntry 0 ⟨some 1, some "OK", some "BANANA", none, none⟩).newState = none :=
  C9_amended "BANANA" (by decide) (by decide) (by decide) 0 (some 1) (some "OK") none none


theorem synthStep_all_gap (startTime : Option Time) (acc : SynthAcc) (s : AlarmStateEntry)
    (hs : s.newState ≠ AlarmState.Alarm)
    (h1 : ∀ p ∈ acc.asd, p.y = YVal.gap) (h2 : ∀ p ∈ acc.absd, p.y = YVal.gap)
    (h3 : acc.lastState ≠ AlarmState.Alarm) :
    (∀ p ∈ (synthStep startTime acc s).asd, p.y = YVal.gap) ∧
    (∀ p ∈ (synthStep startTime acc s).absd, p.y = YVal.gap) ∧
    (synthStep startTime acc s).lastState ≠ AlarmState.Alarm := by
  by_cases hg : gatePasses startTime s.time
  · by_cases h0 : acc.asd.length = 0 <;> by_cases h0' : acc.absd.length = 0 <;>
      cases hsn : s.newState <;> cases hl : acc.lastState <;>
        simp_all [synthStep, hg, List.mem_append] <;> aesop
  · simp_all [synthStep, hg]

theorem foldl_all_gap (startTime : Option Time) (ss : List AlarmStateEntry) (acc : SynthAcc)
    (hss : ∀ s ∈ ss, s.newState ≠ AlarmState.Alarm)
    (h1 : ∀ p ∈ acc.asd, p.y = YVal.gap) (h2 : ∀ p ∈ acc.absd, p.y = YVal.gap)
    (h3 : acc.lastState ≠ AlarmState.Alarm) :
    (∀ p ∈ (ss.foldl (synthStep startTime) acc).asd, p.y = YVal.gap) ∧
    (∀ p ∈ (ss.foldl (synthStep startTime) acc).absd, p.y = YVal.gap) ∧
    (ss.foldl (synthStep startTime) acc).lastState ≠ AlarmState.Alarm := by
  induction ss generalizing acc with
  | nil => exact ⟨h1, h2, h3⟩
  | cons s rest ih =>
    rw [List.foldl_cons]
    have hstep := synthStep_all_gap startTime acc s (hss s (by simp)) h1 h2 h3
    exact ih _ (fun t ht => hss t (by simp [ht])) hstep.1 hstep.2.1 hstep.2.2

/-- C6: if no transition has newState Alarm, every emitted y in both overlay
series (seed, intermediate and terminal points) is the gap sentinel. -/
theorem C6_no_alarm_all_gap (ss : List AlarmStateEntry) (tv : Option JSNum)
    (tc : Option ThresholdComparison) (st et : Option Time) (ps : List Point)
    (h : ∀ s ∈ ss, s.newState ≠ AlarmState.Alarm) :
    ((getAlarmStateData ⟨some ss, tv, tc, st, et, ps⟩).1.all fun p => p.y == YVal.gap) = true ∧
    ((getAlarmStateData ⟨some ss, tv, tc, st, et, ps⟩).2.all fun p => p.y == YVal.gap) = true := by
  rw [getAlarmStateData]
  simp only [List.all_eq_true, beq_iff_eq]
  have hfold := foldl_all_gap
    (jsOrDate st (ps.head?.map (·.time))) ss
    ⟨[], [], .OK, jsOrDate st (ps.head?.map (·.time))⟩ h
    (by simp) (by simp) (by simp)
  constructor
  · intro p hp
    rcases List.mem_append.mp hp with hp | hp
    · exact hfold.1 p hp
    · simp only [List.mem_singleton] at hp
      subst hp
      simp [hfold.2.2]
  · intro p hp
    rcases List.mem_append.mp hp with hp | hp
    · exact hfold.2.1 p hp
    · simp only [List.mem_singleton] at hp
      subst hp
      simp [hfold.2.2]

theorem C6_witness :
    ((getAlarmStateData ⟨some [⟨5, none, .OK, .OK⟩, ⟨7, none, .OK, .Insufficient⟩], none, none,
        some 0, some 10, []⟩).1.all fun p => p.y == YVal.gap) = true ∧
    ((getAlarmStateData ⟨some [⟨5, none, .OK, .OK⟩, ⟨7, none, .OK, .Insufficient⟩], none, none,
        some 0, some 10, []⟩).2.all fun p => p.y == YVal.gap) = true :=
  C6_no_alarm_all_gap _ _ _ _ _ _ (by decide)


theorem synthStep_map_y (startTime : Option Time) (acc : SynthAcc) (s : AlarmStateEntry)
    (h : acc.asd.map (·.y) = acc.absd.map (·.y)) :
    (synthStep startTime acc s).asd.map (·.y) = (synthStep startTime acc s).absd.map (·.y) := by
  have hlen : acc.asd.length = acc.absd.length := by
    have h2 := congrArg List.length h
    simpa using h2
  by_cases hg : gatePasses startTime s.time
  · by_cases h0 : acc.asd.length = 0
    · have h0' : acc.absd.length = 0 := by omega
      cases hs : s.newState <;> cases hl : acc.lastState <;>
        simp [synthStep, hg, h0, h0', hs, hl, List.map_append, h]
    · have h0' : ¬ acc.absd.length = 0 := by omega
      cases hs : s.newState <;> cases hl : acc.lastState <;>
        simp [synthStep, hg, h0, h0', hs, hl, List.map_append, h]
  · simp [synthStep, hg, h]

theorem foldl_map_y (startTime : Option Time) (ss : List AlarmStateEntry) (acc : SynthAcc)
    (h : acc.asd.map (·.y) = acc.absd.map (·.y)) :
    (ss.foldl (synthStep startTime) acc).asd.map (·.y) =
      (ss.foldl (synthStep startTime) acc).absd.map (·.y) := by
  induction ss generalizing acc with
  | nil => simpa using h
  | cons s rest ih =>
    rw [List.foldl_cons]
    exact ih _ (synthStep_map_y startTime acc s h)

/-- C10: the two overlay series always have the same length and carry the same
y value at every index; they can differ only in their x coordinates. -/
theorem C10_series_aligned (options : GenerateGraphOptions) :
    ((getAlarmStateData options).1.map (·.y)) = ((getAlarmStateData options).2.map (·.y)) ∧
    (getAlarmStateData options).1.length = (getAlarmStateData options).2.length := by
  have hmain : ((getAlarmStateData options).1.map (·.y)) = ((getAlarmStateData options).2.map (·.y)) := by
    rw [getAlarmStateData]
    cases options.alarmStates with
    | none => rfl
    | some states =>
      simp only
      rw [List.map_append, List.map_append, foldl_map_y _ states _ rfl]
  refine ⟨hmain, ?_⟩
  have h2 := congrArg List.length hmain
  simpa using h2


theorem synthStep_skip (st : Time) (acc : SynthAcc) (s : AlarmStateEntry) (h : s.time < st) :
    synthStep (some st) acc s = { acc with lastState := s.newState, lastTime := some s.time } := by
  simp [synthStep, gatePasses, not_le.mpr h]

theorem foldl_skipped (st : Time) (ss : List AlarmStateEntry) (acc : SynthAcc)
    (h : ∀ s ∈ ss, s.time < st) :
    ss.foldl (synthStep (some st)) acc =
      { asd := acc.asd, absd := acc.absd,
        lastState := ss.foldl (fun _ s => s.newState) acc.lastState,
        lastTime := ss.foldl (fun _ s => some s.time) acc.lastTime } := by
  induction ss generalizing acc with
  | nil => rfl
  | cons s rest ih =>
    rw [List.foldl_cons, synthStep_skip st acc s (h s (by simp))]
    rw [ih _ (fun t ht => h t (by simp [ht]))]
    rfl

/-- C4 amended: participation is gated on the notification time for both
series. (1) A transition list whose times all precede windowStart emits no
points at all: only the terminal point remains, whose y reflects the running
last-state tracked through the skipped transitions. (2) A transition whose
time passes the gate participates in the Actual series at its begin anchor,
whatever that anchor is relative to windowStart. -/
theorem C4_amended :
    (∀ (ss : List AlarmStateEntry) (tv : Option JSNum) (tc : Option ThresholdComparison)
        (st : Time) (et : Option Time) (ps : List Point),
      (∀ s ∈ ss, s.time < st) →
      getAlarmStateData ⟨some ss, tv, tc, some st, et, ps⟩ =
        ([⟨jsOrDate et (ss.foldl (fun _ s => some s.time) (some st)),
           if ss.foldl (fun _ s => s.newState) AlarmState.OK = AlarmState.Alarm then YVal.one
           else YVal.gap⟩],
         [⟨jsOrDate et (ss.foldl (fun _ s => some s.time) (some st)),
           if ss.foldl (fun _ s => s.newState) AlarmState.OK = AlarmState.Alarm then YVal.one
           else YVal.gap⟩])) ∧
    (∀ (s : AlarmStateEntry) (tv : Option JSNum) (tc : Option ThresholdComparison)
        (st et : Time) (ps : List Point),
      st ≤ s.time → s.newState = AlarmState.Alarm →
      getAlarmStateData ⟨some [s], tv, tc, some st, some et, ps⟩ =
        ([⟨some st, .gap⟩, ⟨some s.time, .one⟩, ⟨some et, .one⟩],
         [⟨some st, .gap⟩, ⟨some (beginAnchor s), .one⟩, ⟨some et, .one⟩])) := by
  constructor
  · intro ss tv tc st et ps h
    have hh := foldl_skipped st ss ⟨[], [], .OK, some st⟩ h
    rw [getAlarmStateData]
    simp only [jsOrDate, hh]
    simp
  · intro s tv tc st et ps hgate hA
    have h1 : synthStep (some st) ⟨[], [], .OK, some st⟩ s =
        ⟨[⟨some st, .gap⟩, ⟨some s.time, .one⟩],
         [⟨some st, .gap⟩, ⟨some (beginAnchor s), .one⟩], .Alarm, some s.time⟩ := by
      rw [← hA]
      simp [synthStep, gatePasses, hgate, hA]
    rw [getAlarmStateData]
    simp only [jsOrDate, List.foldl_cons, List.foldl_nil, h1]
    simp

theorem C4_witness :
    getAlarmStateData ⟨some [⟨5, none, .OK, .Alarm⟩], none, none, some 10, some 20, []⟩ =
      ([⟨some 20, .one⟩], [⟨some 20, .one⟩]) ∧
    getAlarmStateData ⟨some [⟨10, some 0, .OK, .Alarm⟩], none, none, some 10, some 20, []⟩ =
      ([⟨some 10, .gap⟩, ⟨some 10, .one⟩, ⟨some 20, .one⟩],
       [⟨some 10, .gap⟩, ⟨some 0, .one⟩, ⟨some 20, .one⟩]) :=
  ⟨C4_amended.1 [⟨5, none, .OK, .Alarm⟩] none none 10 (some 20) [] (by decide),
   C4_amended.2 ⟨10, some 0, .OK, .Alarm⟩ none none 10 20 [] (by decide) rfl⟩

/-- C5 amended: the 1440-sample bound guards only the prior-Alarm-onset
branch (strictly: extension exactly when samples < 1440); the begin-onset
branch extends unconditionally, with no sample bound. -/
theorem C5_amended :
    (∀ (endTime : Time) (period : Option ℚ) (st onset : Time) (item : AlarmHistoryItem),
      item.oldStateStartDate = some onset →
      stateValueLookup item.oldStateValue = some AlarmState.Alarm →
      onset < st →
      ((endTime - onset : ℤ) : ℚ) / alarmPeriodOrDefault period < 1440 →
      resolveStartTime endTime period st [item] = onset) ∧
    (∀ (endTime : Time) (period : Option ℚ) (st onset : Time) (item : AlarmHistoryItem),
      item.oldStateStartDate = some onset →
      stateValueLookup item.oldStateValue = some AlarmState.Alarm →
      onset < st →
      1440 ≤ ((endTime - onset : ℤ) : ℚ) / alarmPeriodOrDefault period →
      resolveStartTime endTime period st [item] = st) ∧
    (∀ (endTime : Time) (period : Option ℚ) (st bonset : Time) (item : AlarmHistoryItem),
      item.oldStateStartDate = none →
      item.newStateStartDate = some bonset →
      bonset < st →
      resolveStartTime endTime period st [item] = bonset) := by
  refine ⟨?_, ?_, ?_⟩
  · intro endTime period st onset item h1 h2 h3 h4
    push_cast at h4
    simp [resolveStartTime, resolveStartTimeStep, h1, h2, h3, h4]
  · intro endTime period st onset item h1 h2 h3 h4
    push_cast at h4
    simp [resolveStartTime, resolveStartTimeStep, h1, h2, h3, not_lt.mpr h4]
  · intro endTime period st bonset item h1 h2 h3
    simp [resolveStartTime, resolveStartTimeStep, h1, h2, h3]

theorem C5_witness :
    resolveStartTime 864001000 (some 1000000) 864000000
      [⟨some 5, some "ALARM", some "OK", some 0, none⟩] = 0 ∧
    resolveStartTime 1000000000 none 999999000
      [⟨some 5, some "ALARM", some "OK", some 0, none⟩] = 999999000 ∧
    resolveStartTime 1000000000 none 999999000
      [⟨some 5, some "OK", some "ALARM", none, some 7⟩] = 7 :=
  ⟨C5_amended.1 864001000 (some 1000000) 864000000 0 _ rfl rfl (by decide)
      (by norm_num [alarmPeriodOrDefault]),
   C5_amended.2.1 1000000000 none 999999000 0 _ rfl rfl (by decide)
      (by norm_num [alarmPeriodOrDefault, defaultPeriod]),
   C5_amended.2.2 1000000000 none 999999000 7 _ rfl rfl (by decide)⟩


/-- Non-decreasing x between two overlay points (with a defined x on both sides). -/
def xLE (p q : DateValueXY) : Prop := ∀ a ∈ p.x, ∀ b ∈ q.x, a ≤ b

/-- Invariant carried along the synthesizer walk: a nonempty series, sorted by
x, with every defined x at most `L`. -/
structure ChainBound (l : List DateValueXY) (L : Time) : Prop where
  ne : l ≠ []
  chain : List.Chain' xLE l
  bound : ∀ p ∈ l, ∀ a ∈ p.x, a ≤ L

theorem ChainBound.mono {l : List DateValueXY} {L M : Time} (h : ChainBound l L)
    (hLM : L ≤ M) : ChainBound l M :=
  ⟨h.ne, h.chain, fun p hp a ha => le_trans (h.bound p hp a ha) hLM⟩

theorem ChainBound.push {l : List DateValueXY} {L : Time} (h : ChainBound l L)
    {v : Time} (hv : L ≤ v) (y : YVal) : ChainBound (l ++ [⟨some v, y⟩]) v := by
  refine ⟨by simp, ?_, ?_⟩
  · refine h.chain.append (List.chain'_singleton _) ?_
    intro x hx z hz
    simp only [List.head?_cons, Option.mem_def, Option.some.injEq] at hz
    subst hz
    obtain ⟨hne, rfl⟩ := List.mem_getLast?_eq_getLast hx
    intro a ha b hb
    simp only [Option.mem_def, Option.some.injEq] at hb
    subst hb
    exact le_trans (h.bound _ (List.getLast_mem hne) a ha) hv
  · intro p hp a ha
    rcases List.mem_append.mp hp with hp | hp
    · exact le_trans (h.bound p hp a ha) hv
    · simp only [List.mem_singleton] at hp
      subst hp
      have h2 : some v = some a := ha
      exact le_of_eq (Option.some.inj h2).symm

theorem ChainBound.push2 {l : List DateValueXY} {L : Time} (h : ChainBound l L)
    {v w : Time} (hv : L ≤ v) (hw : v ≤ w) (y z : YVal) :
    ChainBound (l ++ [⟨some v, y⟩, ⟨some w, z⟩]) w := by
  have h2 := (h.push hv y).push hw z
  rw [List.append_assoc] at h2
  simpa using h2

theorem ChainBound.single (v : Time) (y : YVal) : ChainBound [⟨some v, y⟩] v := by
  refine ⟨by simp, List.chain'_singleton _, ?_⟩
  intro p hp a ha
  simp only [List.mem_singleton] at hp
  subst hp
  have h2 : some v = some a := ha
  exact le_of_eq (Option.some.inj h2).symm

theorem synthStep_chainBound (st : Time) (acc : SynthAcc) (s : AlarmStateEntry) {Lt La : Time}
    (hA : ChainBound acc.asd Lt) (hB : ChainBound acc.absd La)
    (hg : st ≤ s.time) (ht : Lt < s.time) (ha : La < beginAnchor s) :
    ChainBound (synthStep (some st) acc s).asd s.time ∧
    ChainBound (synthStep (some st) acc s).absd (beginAnchor s) := by
  have hgate : gatePasses (some st) s.time = true := by simp [gatePasses, hg]
  have h0 : ¬ acc.asd.length = 0 := by simpa [List.length_eq_zero] using hA.ne
  have h0' : ¬ acc.absd.length = 0 := by simpa [List.length_eq_zero] using hB.ne
  cases hsn : s.newState
  case OK =>
    cases hl : acc.lastState
    case Alarm =>
      have e1 : (synthStep (some st) acc s).asd =
          acc.asd ++ [⟨some (s.time - 1), .one⟩, ⟨some s.time, .gap⟩] := by
        simp [synthStep, hgate, h0, h0', hsn, hl]
      have e2 : (synthStep (some st) acc s).absd =
          acc.absd ++ [⟨some (beginAnchor s - 1), .one⟩, ⟨some (beginAnchor s), .gap⟩] := by
        simp [synthStep, hgate, h0, h0', hsn, hl]
      rw [e1, e2]
      exact ⟨hA.push2 (Int.le_sub_one_iff.mpr ht) (sub_le_self _ zero_le_one) _ _,
             hB.push2 (Int.le_sub_one_iff.mpr ha) (sub_le_self _ zero_le_one) _ _⟩
    all_goals
      have e1 : (synthStep (some st) acc s).asd = acc.asd ++ [⟨some s.time, .gap⟩] := by
        simp [synthStep, hgate, h0, h0', hsn, hl]
      have e2 : (synthStep (some st) acc s).absd = acc.absd ++ [⟨some (beginAnchor s), .gap⟩] := by
        simp [synthStep, hgate, h0, h0', hsn, hl]
      rw [e1, e2]
      exact ⟨hA.push (le_of_lt ht) _, hB.push (le_of_lt ha) _⟩
  case Alarm =>
    have e1 : (synthStep (some st) acc s).asd = acc.asd ++ [⟨some s.time, .one⟩] := by
      simp [synthStep, hgate, h0, h0', hsn]
    have e2 : (synthStep (some st) acc s).absd = acc.absd ++ [⟨some (beginAnchor s), .one⟩] := by
      simp [synthStep, hgate, h0, h0', hsn]
    rw [e1, e2]
    exact ⟨hA.push (le_of_lt ht) _, hB.push (le_of_lt ha) _⟩
  case Insufficient =>
    have e1 : (synthStep (some st) acc s).asd = acc.asd := by
      simp [synthStep, hgate, h0, h0', hsn]
    have e2 : (synthStep (some st) acc s).absd = acc.absd := by
      simp [synthStep, hgate, h0, h0', hsn]
    rw [e1, e2]
    exact ⟨hA.mono (le_of_lt ht), hB.mono (le_of_lt ha)⟩

theorem foldl_chainBound (st : Time) (ss : List AlarmStateEntry) (acc : SynthAcc) (Lt La : Time)
    (hA : ChainBound acc.asd Lt) (hB : ChainBound acc.absd La)
    (hg : ∀ s ∈ ss, st ≤ s.time)
    (ht : List.Chain (· < ·) Lt (ss.map (·.time)))
    (ha : List.Chain (· < ·) La (ss.map beginAnchor)) :
    ∃ Lt' La', ChainBound (ss.foldl (synthStep (some st)) acc).asd Lt' ∧
      ChainBound (ss.foldl (synthStep (some st)) acc).absd La' ∧
      (Lt' = Lt ∨ Lt' ∈ ss.map (·.time)) ∧ (La' = La ∨ La' ∈ ss.map beginAnchor) := by
  induction ss generalizing acc Lt La with
  | nil => exact ⟨Lt, La, hA, hB, Or.inl rfl, Or.inl rfl⟩
  | cons s rest ih =>
    rw [List.map_cons] at ht ha
    obtain ⟨ht1, ht2⟩ := List.chain_cons.mp ht
    obtain ⟨ha1, ha2⟩ := List.chain_cons.mp ha
    have hstep := synthStep_chainBound st acc s hA hB (hg s (by simp)) ht1 ha1
    rw [List.foldl_cons]
    obtain ⟨Lt', La', h1, h2, h3, h4⟩ :=
      ih _ _ _ hstep.1 hstep.2 (fun t h => hg t (by simp [h])) ht2 ha2
    refine ⟨Lt', La', h1, h2, ?_, ?_⟩
    · rcases h3 with h | h
      · right
        rw [List.map_cons, h]
        exact List.mem_cons_self _ _
      · right
        rw [List.map_cons]
        exact List.mem_cons_of_mem _ h
    · rcases h4 with h | h
      · right
        rw [List.map_cons, h]
        exact List.mem_cons_self _ _
      · right
        rw [List.map_cons]
        exact List.mem_cons_of_mem _ h

theorem synthStep_first (st : Time) (s : AlarmStateEntry)
    (hg : st ≤ s.time) (ha : st ≤ beginAnchor s) :
    ChainBound (synthStep (some st) ⟨[], [], .OK, some st⟩ s).asd s.time ∧
    ChainBound (synthStep (some st) ⟨[], [], .OK, some st⟩ s).absd (beginAnchor s) := by
  have hgate : gatePasses (some st) s.time = true := by simp [gatePasses, hg]
  cases hsn : s.newState
  case OK =>
    have e1 : (synthStep (some st) ⟨[], [], .OK, some st⟩ s).asd =
        [⟨some st, .gap⟩] ++ [⟨some s.time, .gap⟩] := by
      simp [synthStep, hgate, hsn]
    have e2 : (synthStep (some st) ⟨[], [], .OK, some st⟩ s).absd =
        [⟨some st, .gap⟩] ++ [⟨some (beginAnchor s), .gap⟩] := by
      simp [synthStep, hgate, hsn]
    rw [e1, e2]
    exact ⟨(ChainBound.single st _).push hg _, (ChainBound.single st _).push ha _⟩
  case Alarm =>
    have e1 : (synthStep (some st) ⟨[], [], .OK, some st⟩ s).asd =
        [⟨some st, .gap⟩] ++ [⟨some s.time, .one⟩] := by
      simp [synthStep, hgate, hsn]
    have e2 : (synthStep (some st) ⟨[], [], .OK, some st⟩ s).absd =
        [⟨some st, .gap⟩] ++ [⟨some (beginAnchor s), .one⟩] := by
      simp [synthStep, hgate, hsn]
    rw [e1, e2]
    exact ⟨(ChainBound.single st _).push hg _, (ChainBound.single st _).push ha _⟩
  case Insufficient =>
    have e1 : (synthStep (some st) ⟨[], [], .OK, some st⟩ s).asd = [⟨some st, .gap⟩] := by
      simp [synthStep, hgate, hsn]
    have e2 : (synthStep (some st) ⟨[], [], .OK, some st⟩ s).absd = [⟨some st, .gap⟩] := by
      simp [synthStep, hgate, hsn]
    rw [e1, e2]
    exact ⟨(ChainBound.single st _).mono hg, (ChainBound.single st _).mono ha⟩

/-- C3 amended: when the transition list is non-empty, its notification times
are strictly increasing and lie within the window, and its begin anchors
likewise, each overlay series has at least two points (seed + terminal) and
its x coordinates are monotonically non-decreasing. -/
theorem C3_amended (ss : List AlarmStateEntry) (tv : Option JSNum)
    (tc : Option ThresholdComparison) (st et : Time) (ps : List Point)
    (hne : ss ≠ [])
    (hg : ∀ s ∈ ss, st ≤ s.time) (hte : ∀ s ∈ ss, s.time ≤ et)
    (hab : ∀ s ∈ ss, st ≤ beginAnchor s) (hae : ∀ s ∈ ss, beginAnchor s ≤ et)
    (hchainT : List.Chain' (fun a b => a.time < b.time) ss)
    (hchainA : List.Chain' (fun a b => beginAnchor a < beginAnchor b) ss) :
    2 ≤ (getAlarmStateData ⟨some ss, tv, tc, some st, some et, ps⟩).1.length ∧
    2 ≤ (getAlarmStateData ⟨some ss, tv, tc, some st, some et, ps⟩).2.length ∧
    List.Chain' xLE (getAlarmStateData ⟨some ss, tv, tc, some st, some et, ps⟩).1 ∧
    List.Chain' xLE (getAlarmStateData ⟨some ss, tv, tc, some st, some et, ps⟩).2 := by
  match ss, hne with
  | s :: rest, _ =>
    have hfirst := synthStep_first st s (hg s (by simp)) (hab s (by simp))
    have hmapT : List.Chain' (· < ·) ((s :: rest).map (·.time)) :=
      (List.chain'_map _).mpr hchainT
    have hmapA : List.Chain' (· < ·) ((s :: rest).map beginAnchor) :=
      (List.chain'_map _).mpr hchainA
    rw [List.map_cons] at hmapT hmapA
    obtain ⟨Lt', La', h1, h2, h3, h4⟩ :=
      foldl_chainBound st rest (synthStep (some st) ⟨[], [], .OK, some st⟩ s) s.time
        (beginAnchor s) hfirst.1 hfirst.2 (fun t h => hg t (by simp [h])) hmapT hmapA
    have hLt'et : Lt' ≤ et := by
      rcases h3 with h | h
      · exact h ▸ hte s (by simp)
      · obtain ⟨u, hu, rfl⟩ := List.mem_map.mp h
        exact hte u (by simp [hu])
    have hLa'et : La' ≤ et := by
      rcases h4 with h | h
      · exact h ▸ hae s (by simp)
      · obtain ⟨u, hu, rfl⟩ := List.mem_map.mp h
        exact hae u (by simp [hu])
    rw [getAlarmStateData]
    simp only [jsOrDate, List.foldl_cons]
    set acc := rest.foldl (synthStep (some st)) (synthStep (some st) ⟨[], [], .OK, some st⟩ s)
      with hacc
    have hpush1 := h1.push hLt'et (if acc.lastState = AlarmState.Alarm then YVal.one else .gap)
    have hpush2 := h2.push hLa'et (if acc.lastState = AlarmState.Alarm then YVal.one else .gap)
    have hlen1 : 1 ≤ acc.asd.length := by
      have := List.length_pos.mpr h1.ne
      omega
    have hlen2 : 1 ≤ acc.absd.length := by
      have := List.length_pos.mpr h2.ne
      omega
    refine ⟨?_, ?_, hpush1.chain, hpush2.chain⟩
    · rw [List.length_append]
      simpa using hlen1
    · rw [List.length_append]
      simpa using hlen2

theorem C3_witness :
    2 ≤ (getAlarmStateData ⟨some [⟨10, none, .OK, .Alarm⟩, ⟨20, some 15, .Alarm, .OK⟩],
          none, none, some 0, some 30, []⟩).1.length ∧
    2 ≤ (getAlarmStateData ⟨some [⟨10, none, .OK, .Alarm⟩, ⟨20, some 15, .Alarm, .OK⟩],
          none, none, some 0, some 30, []⟩).2.length ∧
    List.Chain' xLE (getAlarmStateData ⟨some [⟨10, none, .OK, .Alarm⟩, ⟨20, some 15, .Alarm, .OK⟩],
          none, none, some 0, some 30, []⟩).1 ∧
    List.Chain' xLE (getAlarmStateData ⟨some [⟨10, none, .OK, .Alarm⟩, ⟨20, some 15, .Alarm, .OK⟩],
          none, none, some 0, some 30, []⟩).2 :=
  C3_amended [⟨10, none, .OK, .Alarm⟩, ⟨20, some 15, .Alarm, .OK⟩] none none 0 30 []
    (by simp) (by decide) (by decide) (by decide) (by decide)
    (by simp [List.chain'_cons, beginAnchor]) (by simp [List.chain'_cons, beginAnchor])

end AlertChart
